import Mathlib

/-!
Verification development for `pullman.py`: a shallow embedding of the
pull-request resolution and CI-failure harvesting logic, with theorems
checking the natural-language specification against the code.

Python strings are modelled as Lean `String`s; Python slicing, `str.split`,
`str.partition`, `str.strip`, `str.startswith` and the `in` containment test
are modelled by explicit helpers over `String.data` (lists of characters).
Machine-level concerns (unicode numerics beyond ASCII digits) are modelled
for the ASCII case, which is the case all the theorems below exercise.
-/

namespace Pullman

/-! ## Python string primitives -/

/-- Python `s[:n]` (character slicing). -/
def pyTake (n : Nat) (s : String) : String := (s.data.take n).asString

/-- Python `s[n:]` (character slicing). -/
def pyDrop (n : Nat) (s : String) : String := (s.data.drop n).asString

/-- Python `s.startswith(p)`. -/
def pyStartsWith (s p : String) : Bool := decide (p.data <+: s.data)

/-- Python `sub in s` (case-sensitive substring containment). -/
def strContains (s sub : String) : Bool := decide (sub.data <:+: s.data)

/-- Python `s.strip()`: remove leading and trailing whitespace. -/
def pyStrip (s : String) : String :=
  (((s.data.dropWhile Char.isWhitespace).reverse.dropWhile Char.isWhitespace).reverse).asString

/-- Helper for `pySplit`: walk the characters with the (reversed) current
word as accumulator, emitting a word at each whitespace boundary. -/
def splitWsAux : List Char → List Char → List (List Char)
  | [], acc => if acc.isEmpty then [] else [acc.reverse]
  | c :: cs, acc =>
    if c.isWhitespace then
      if acc.isEmpty then splitWsAux cs [] else acc.reverse :: splitWsAux cs []
    else splitWsAux cs (c :: acc)

/-- Python `s.split()` with no argument: split on whitespace runs, dropping
empty pieces. -/
def pySplit (s : String) : List String := (splitWsAux s.data []).map List.asString

/-- Index of the first occurrence of `sep` in `l`, if any (Python `str.find`
on the underlying characters). -/
def listFind (sep : List Char) : List Char → Option Nat
  | [] => if sep.isEmpty then some 0 else none
  | c :: cs =>
    if sep <+: (c :: cs) then some 0
    else (listFind sep cs).map (· + 1)

/-- Python `s.partition(sep)`: split at the first occurrence of `sep` into
`(before, sep, after)`, or `(s, "", "")` when `sep` does not occur. -/
def pyPartition (s sep : String) : String × String × String :=
  match listFind sep.data s.data with
  | none => (s, "", "")
  | some i =>
      ((s.data.take i).asString, sep, (s.data.drop (i + sep.data.length)).asString)

/-- Python `s.isnumeric()` (modelled for ASCII digits). -/
def pyIsNumeric (s : String) : Bool := !s.isEmpty && s.data.all Char.isDigit

/-! ## CI polling (`_get_failures`, pullman.py lines 581-603)

A `Job` models one element of the `jobs` array returned by the job-listing
endpoint: an id and a conclusion string, where the empty string models a
falsy (pending) conclusion. -/

structure Job where
  id : Nat
  conclusion : String
deriving DecidableEq, Repr

/-- `"failure"` (pullman.py line 526). -/
def FAILURE : String := "failure"

/-- `sum(not j["conclusion"] for j in jobs)` (pullman.py line 591). -/
def notFinishedCount (jobs : List Job) : Nat :=
  (jobs.filter (fun j => j.conclusion = "")).length

/-- The `while True:` polling loop of `_get_failures` (pullman.py lines
582-599), with the successive fetches of
`actions/runs/{run_id}/jobs?per_page=100` supplied as a stream
`fetch : Nat → List Job`.  The loop body breaks unless
`seconds and not_finished` is truthy; otherwise it sleeps `seconds` seconds
(note: the source never imports `time`, so reaching `time.sleep` raises
`NameError` — the model charitably assumes the sleep succeeds) and
re-fetches.  `fuel` bounds how many loop iterations we unfold; `none` means
the loop has not exited within `fuel` iterations.  On exit it returns the
last fetched job list together with the number of sleeps performed. -/
def pollLoop (fetch : Nat → List Job) (seconds : Nat) : Nat → Option (List Job × Nat)
  | 0 => none
  | fuel + 1 =>
    let jobs := fetch 0
    if seconds ≠ 0 ∧ notFinishedCount jobs ≠ 0 then
      match pollLoop (fun k => fetch (k + 1)) seconds fuel with
      | none => none
      | some (js, slept) => some (js, slept + 1)
    else some (jobs, 0)

/-- `_get_failures` (pullman.py lines 581-603): run the polling loop, then
filter to jobs whose conclusion equals `"failure"`.  The second component
counts the sleeps performed. -/
def get_failures (fetch : Nat → List Job) (seconds : Nat) (fuel : Nat) :
    Option (List Job × Nat) :=
  (pollLoop fetch seconds fuel).map
    (fun p => (p.1.filter (fun j => j.conclusion = FAILURE), p.2))

/-! ## Command deduplication (`run_error_command`, pullman.py lines 533-555) -/

/-- Truthiness of `any(c_id)` where `c_id = d.get(after, (None, None))`
(pullman.py line 540): false for the `(None, None)` default, and for a
stored pair `(cmd, job_id)` true iff `cmd` is a non-empty string or
`job_id` is a non-zero integer. -/
def pyAnyPair : Option (String × Nat) → Bool
  | none => false
  | some (cmd, id) => cmd ≠ "" || id ≠ 0

/-- Python dict assignment `d[k] = v` on an insertion-ordered association
list: overwrite in place when the key exists, else append. -/
def dictSet (d : List (String × (String × Nat))) (k : String) (v : String × Nat) :
    List (String × (String × Nat)) :=
  if (d.lookup k).isSome then
    d.map (fun kv => if kv.1 = k then (k, v) else kv)
  else d ++ [(k, v)]

/-- One iteration of the deduplication loop of `run_error_command`
(pullman.py lines 538-545): partition the command at the first
`"python "`, and unless (`before` is non-empty and a truthy pair is
already stored under `after` and the candidate is at least as long as the
stored command — the `continue` path) store the candidate under `after`. -/
def dedupStep (d : List (String × (String × Nat))) (cj : String × Nat) :
    List (String × (String × Nat)) :=
  let c := cj.1
  let job_id := cj.2
  let p := pyPartition c "python "
  let before := p.1
  let after := p.2.2
  if before ≠ "" ∧ pyAnyPair (d.lookup after) then
    match d.lookup after with
    | some (cmd, _) =>
        if cmd.length ≤ c.length then d else dictSet d after (c, job_id)
    | none => dictSet d after (c, job_id)
  else dictSet d after (c, job_id)

/-- The deduplication pass of `run_error_command` when
`args.all_env_combos` is false (pullman.py lines 537-545): fold the
candidate `(command, job_id)` pairs into the dict `d`. -/
def dedup (commands : List (String × Nat)) : List (String × (String × Nat)) :=
  commands.foldl dedupStep []

/-! ## Log-command extraction (`_get_command`, pullman.py lines 606-617) -/

/-- The marker phrase `COMMAND` (pullman.py line 528). -/
def COMMAND : String := "To execute this test, run the following from the base repo dir"

/-- `MATCH_PYTHON_COMMAND_RE.match(w)` for `re.compile(r"([A-Z_]+=.*)|python")`
(pullman.py line 524): `re.match` anchors at the start only, so a token
matches iff it starts with a non-empty run of `[A-Z_]` immediately followed
by `=`, or starts with the literal `python`.  (The greedy `[A-Z_]+` with
backtracking is equivalent to taking the maximal `[A-Z_]` run: any shorter
run is followed by another `[A-Z_]` character, never by `=`.) -/
def matchPythonCommand (w : String) : Bool :=
  let pre := w.data.takeWhile (fun c => c.isUpper || c = '_')
  (!pre.isEmpty && (w.data.drop pre.length).head? = some '=') || pyStartsWith w "python"

/-- `_get_command` (pullman.py lines 606-617), with the job log supplied as
its list of lines (`.splitlines()` output).  `some cmd` is a normal return;
`none` models the `IndexError` Python raises at `lines[cmd_index + 1]` when
the first marker line is the last line of the log. -/
def get_command (lines : List String) : Option String :=
  match lines.findIdx? (fun li => strContains li COMMAND) with
  | none => some ""
  | some i =>
    match lines.get? (i + 1) with
    | none => none
    | some nxt =>
      some (String.intercalate " " ((pySplit nxt).dropWhile (fun w => !matchPythonCommand w)))

/-- The extraction rule in the words of the claim: tokens are dropped from
the front until the first remaining token matches the environment-assignment
pattern or IS THE LITERAL TOKEN `"python"` (rather than merely starting with
`python`).  Used only to compare the claim against `get_command`. -/
def claimTokenStops (w : String) : Bool :=
  let pre := w.data.takeWhile (fun c => c.isUpper || c = '_')
  (!pre.isEmpty && (w.data.drop pre.length).head? = some '=') || w = "python"

/-- Claim-side extraction for the comparison: same marker search, but tokens
are dropped until a token satisfies `claimTokenStops`. -/
def claim_get_command (lines : List String) : Option String :=
  match lines.findIdx? (fun li => strContains li COMMAND) with
  | none => some ""
  | some i =>
    match lines.get? (i + 1) with
    | none => none
    | some nxt =>
      some (String.intercalate " " ((pySplit nxt).dropWhile (fun w => !claimTokenStops w)))

/-! ## Ghstack message extraction (`_get_ghstack_message`, pullman.py
lines 151-169)

The input is the output of `git log --pretty=medium -1 {ref}` supplied as a
list of lines; the external `_run` call itself is handled where
`_matching_pull` is modelled. -/

/-- `"Pull Request resolved:"` (pullman.py line 63). -/
def PULL_REQUEST_RESOLVED : String := "Pull Request resolved:"

/-- `"ghstack-source-id:"` (pullman.py line 61). -/
def GHSTACK_SOURCE : String := "ghstack-source-id:"

/-- `"https://github.com/pytorch/pytorch/pull/"` (pullman.py line 60). -/
def PULL_PREFIX : String := "https://github.com/pytorch/pytorch/pull/"

/-- The ways `_get_ghstack_message` fails: the two `assert` statements
(lines 155 and 168) raise `AssertionError`, the two explicit raises
(lines 159 and 161) raise `PullError` with the given messages. -/
inductive GhMsgError where
  | assertEmptyLines
  | notGhstack
  | malformed
  | assertPullNumber (pull : String)
deriving DecidableEq, Repr

deriving instance DecidableEq for Except

/-- `lines = [i[4:] for i in lines if i[:4] == "    "]` (pullman.py line 154). -/
def ghIndented (logLines : List String) : List String :=
  (logLines.filter (fun i => pyTake 4 i = "    ")).map (pyDrop 4)

/-- `urls = [u for s in lines if (u := s.partition(_PULL_REQUEST_RESOLVED)[2].strip())]`
(pullman.py line 157). -/
def ghUrls (lines : List String) : List String :=
  (lines.map (fun s => pyStrip (pyPartition s PULL_REQUEST_RESOLVED).2.2)).filter (· ≠ "")

/-- `while lines and not lines[-1].strip(): lines.pop()`
(pullman.py lines 165-166): drop trailing blank lines. -/
def dropTrailingBlank (l : List String) : List String :=
  (l.reverse.dropWhile (fun s => pyStrip s = "")).reverse

/-- Pullman.py lines 163-166: truncate at (exclusive of) the first line
starting with `ghstack-source-id:` — note `end = -1` when there is none, and
`lines[:-1]` drops the LAST line — then drop trailing blank lines. -/
def ghCleanedLines (lines : List String) : List String :=
  dropTrailingBlank
    (match lines.findIdx? (fun s => pyStartsWith s GHSTACK_SOURCE) with
     | none => lines.dropLast
     | some e => lines.take e)

/-- `_get_ghstack_message` (pullman.py lines 151-169) on the log lines of
the commit: keep the 4-space-indented body lines, require them non-empty
(`assert lines`), require exactly one line with a non-empty remainder after
`"Pull Request resolved:"`, truncate at the first `ghstack-source-id:` line
(`lines[:end]` with `end = -1`, i.e. `dropLast`, when there is none), drop
trailing blanks, and parse the pull number from the URL suffix — asserting
that it is numeric with 6 or 7 digits. -/
def get_ghstack_message (logLines : List String) : Except GhMsgError (String × List String) :=
  let lines := ghIndented logLines
  if lines.isEmpty then .error .assertEmptyLines else
  match ghUrls lines with
  | [] => .error .notGhstack
  | [url] =>
    let pull := pyStrip (pyPartition url PULL_PREFIX).2.2
    if pyIsNumeric pull && (pull.length = 6 || pull.length = 7) then
      .ok (pull, ghCleanedLines lines)
    else .error (.assertPullNumber pull)
  | _ :: _ :: _ => .error .malformed

/-! ## Reference parsing (`PullRequest._user_index`, pullman.py lines 138-148) -/

/-- Python `s.split(c)` for a one-character separator, on the underlying
character list: keeps empty pieces, `[[]]` for the empty string. -/
def splitChar (c : Char) : List Char → List (List Char)
  | [] => [[]]
  | a :: as =>
    if a = c then [] :: splitChar c as
    else
      match splitChar c as with
      | [] => [[a]]
      | h :: t => (a :: h) :: t

/-- Python `ref.split("/")`. -/
def pySplitSlash (s : String) : List String := (splitChar '/' s.data).map List.asString

/-- `PullRequest._user_index` (pullman.py lines 138-148): split the ref on
`/`; with exactly 5 parts, a last part other than `orig` raises
`PullError("Waiting for orig branch")`; `upstream/gh/<user>/<numeric>/orig`
returns `(user, int(index))`; everything else raises
`PullError("Do not understand git reference '<ref>'")`. -/
def user_index (ref : String) : Except String (String × Nat) :=
  match pySplitSlash ref with
  | [remote, gh, user, index, branch] =>
    if branch ≠ "orig" then .error "Waiting for orig branch"
    else if remote = "upstream" && gh = "gh" && pyIsNumeric index then
      .ok (user, (index.toNat?).getD 0)
    else .error ("Do not understand git reference '" ++ ref ++ "'")
  | _ => .error ("Do not understand git reference '" ++ ref ++ "'")

/-! ## Pull-request resolution (`PullRequests._matching_pull`, pullman.py
lines 282-301)

An entry of `self.pulls` is modelled by its two fields the resolver reads:
`pull_number` and `subject`.  `self.pulls` is the insertion-ordered dict
`user ↦ list of entries`, modelled as an association list. -/

structure PR where
  pull_number : String
  subject : String
deriving DecidableEq, Repr

/-- The exceptions `_matching_pull` can let escape: `PullError` with a
message, `AssertionError` (from the asserts inside `_get_ghstack_message`),
and `KeyError` (from `self.pulls[self.user]` when the user has no entry). -/
inductive MatchErr where
  | pullError (msg : String)
  | assertionError
  | keyError
deriving DecidableEq, Repr

/-- How an exception raised inside `_get_ghstack_message` surfaces from
`_matching_pull`: the asserts are `AssertionError`s, the raises are
`PullError`s with the messages of pullman.py lines 159 and 161. -/
def ghMsgErrToMatch : GhMsgError → MatchErr
  | .assertEmptyLines => .assertionError
  | .assertPullNumber _ => .assertionError
  | .notGhstack => .pullError "not a ghstack pull request"
  | .malformed => .pullError "Malformed ghstack pull requst"

/-- `PullRequests._get_pull` (pullman.py lines 272-280): flatten all users'
entries, build `{p.pull_number: p for p in pulls}` (later entries with the
same number overwrite earlier ones, so lookup returns the last), and fail
with `PullError` when the number is absent. -/
def get_pull (pulls : List (String × List PR)) (pull_number : String) : Except MatchErr PR :=
  match (((pulls.map Prod.snd).flatten).filter (fun p => p.pull_number = pull_number)).getLast? with
  | some p => .ok p
  | none => .error (.pullError "No such pull request (rerun with -fw if you know it exists)")

/-- The inner `search` of `_matching_pull` (pullman.py lines 283-286):
the last entry of the current user's list whose subject contains `s`;
`PullError` naming `self.pull` (the whole query) when none does.
`KeyError` when `self.pulls` has no entry for the user. -/
def pullSearch (pulls : List (String × List PR)) (user : String) (pull : String)
    (s : String) : Except MatchErr PR :=
  match pulls.lookup user with
  | none => .error .keyError
  | some l =>
    match (l.filter (fun p => strContains p.subject s)).getLast? with
    | some p => .ok p
    | none => .error (.pullError ("Can't find any commits matching '" ++ pull ++ "'"))

/-- `PullRequests._matching_pull` (pullman.py lines 282-301).  The output of
the external `git log --pretty=medium -1 {self.pull}` call made by
`_get_ghstack_message` is supplied as `ghLog`: `none` models the command
failing (`CalledProcessError`, which the `with suppress(CalledProcessError)`
block swallows), `some logLines` its output.  A `#` query goes to
`_get_pull`; a `:/` query to `search`; otherwise the ghstack extraction is
tried, whose `PullError`/`AssertionError` — and the `PullError` of the
`_get_pull` on its result — propagate; only when the git command itself
failed does the code continue: a numeric query retries `_get_pull`
suppressing `PullError`, and finally `search(self.pull)` runs. -/
def matching_pull (pulls : List (String × List PR)) (user : String) (pull : String)
    (ghLog : Option (List String)) : Except MatchErr PR :=
  if pyStartsWith pull "#" then get_pull pulls (pyDrop 1 pull)
  else if pyStartsWith pull ":/" then pullSearch pulls user pull (pyDrop 2 pull)
  else
    match ghLog with
    | some logLines =>
      match get_ghstack_message logLines with
      | .ok (n, _) => get_pull pulls n
      | .error e => .error (ghMsgErrToMatch e)
    | none =>
      if pyIsNumeric pull then
        match get_pull pulls pull with
        | .ok p => .ok p
        | .error _ => pullSearch pulls user pull pull
      else pullSearch pulls user pull pull

/-! ## Cache round-trip (`PullRequest.asdict` / `PullRequest.fromdict`,
pullman.py lines 129-136, and `PullRequests.load` / `save`, lines 177-187)

A JSON record value and a `PullRequest.__dict__` are both modelled as
insertion-ordered association lists from attribute names to `JVal`s. -/

inductive JVal where
  | s (v : String)
  | b (v : Bool)
  | l (v : List String)
  | n (v : Int)
deriving DecidableEq, Repr

/-- A Python `dict` / instance `__dict__`. -/
abbrev Dict := List (String × JVal)

/-- `FIELDS = "is_open", "pull_message", "pull_number", "ref"`
(pullman.py line 67). -/
def FIELDS : List String := ["is_open", "pull_message", "pull_number", "ref"]

/-- The names under which `PullRequest`'s `cached_property` descriptors
memoize into the instance `__dict__` (pullman.py lines 80-148): an entry in
`__dict__` under one of these names preempts the descriptor's computation. -/
def CACHED_PROPS : List String :=
  ["user", "ghstack_index", "pull_number", "pull_message", "subject", "is_open",
   "commit_id", "url", "commit_url", "hud_url", "ref_url", "_user_index"]

/-- `PullRequest.asdict` (pullman.py lines 129-130):
`{f: v for f in FIELDS if (v := self.__dict__.get(f)) is not None}`. -/
def asdict (e : Dict) : Dict :=
  FIELDS.filterMap (fun f => (List.lookup f e).map (fun v => (f, v)))

/-- Remove every binding of key `k`. -/
def removeKey (d : Dict) (k : String) : Dict := d.filter (fun kv => kv.1 ≠ k)

/-- `PullRequest.fromdict` (pullman.py lines 132-136) applied as
`PullRequest.fromdict(**record)` (pullman.py line 180): the record must
bind `ref` (else the call raises `TypeError`, modelled by `none`); the new
instance `__dict__` holds `ref` and is then `update`d with the remaining
keys — all of them, recognized or not. -/
def fromdict (record : Dict) : Option Dict :=
  match List.lookup "ref" record with
  | some r => some (("ref", r) :: removeKey record "ref")
  | none => none

/-- Attribute read of `pull_number` on an entity: the memoized value if
present; `none` models falling into the `cached_property` body, which runs
`_get_ghstack_message(self.ref)` against the repository. -/
def attr_pull_number (e : Dict) : Option JVal := List.lookup "pull_number" e

/-- Attribute read of `is_open`: the memoized value if present; `none`
models the `cached_property` body's network fetch. -/
def attr_is_open (e : Dict) : Option JVal := List.lookup "is_open" e

/-- Attribute read of `subject` (pullman.py lines 96-98): the memoized
value if present, else `self.pull_message[0]` — which itself reads the
memoized `pull_message` when present.  `none` models the paths that leave
pure Python (a `pull_message` miss runs git) or raise
(`IndexError`/`TypeError` on a malformed value). -/
def attr_subject (e : Dict) : Option JVal :=
  match List.lookup "subject" e with
  | some v => some v
  | none =>
    match List.lookup "pull_message" e with
    | some (JVal.l (x :: _)) => some (JVal.s x)
    | some _ => none
    | none => none

/-! ## Helper lemmas -/

theorem lookup_map_set_self (d : List (String × (String × Nat))) (k : String)
    (v : String × Nat) (h : (d.lookup k).isSome = true) :
    (d.map (fun kv => if kv.1 = k then (k, v) else kv)).lookup k = some v := by
  induction d with
  | nil => simp at h
  | cons kv t ih =>
    obtain ⟨k1, v1⟩ := kv
    by_cases hk : k1 = k
    · subst hk
      simp [List.lookup_cons]
    · have hbe : (k == k1) = false := by simp [Ne.symm hk]
      rw [List.lookup_cons, hbe] at h
      simp only [List.map_cons, if_neg hk, List.lookup_cons, hbe]
      exact ih h

theorem lookup_dictSet_self (d : List (String × (String × Nat))) (k : String) (v : String × Nat) :
    (dictSet d k v).lookup k = some v := by
  unfold dictSet
  rcases hl : d.lookup k with _ | v0
  · rw [if_neg (by simp), List.lookup_append, hl]
    simp [List.lookup_cons]
  · have hs : (d.lookup k).isSome = true := by rw [hl]; rfl
    have hc : ((some v0).isSome = true) := rfl
    rw [if_pos hc]
    exact lookup_map_set_self d k v hs

theorem lookup_map_set_ne (d : List (String × (String × Nat))) (k k' : String)
    (v : String × Nat) (hne : k' ≠ k) :
    (d.map (fun kv => if kv.1 = k then (k, v) else kv)).lookup k' = d.lookup k' := by
  induction d with
  | nil => simp
  | cons kv t ih =>
    obtain ⟨k1, v1⟩ := kv
    by_cases hk : k1 = k
    · subst hk
      have hbe : (k' == k1) = false := by simp [hne]
      simp [List.lookup_cons, hbe, ih]
    · simp only [List.map_cons, if_neg hk, List.lookup_cons]
      cases hbe : (k' == k1) <;> simp only [hbe, ih]

theorem lookup_dictSet_ne (d : List (String × (String × Nat))) (k k' : String)
    (v : String × Nat) (hne : k' ≠ k) : (dictSet d k v).lookup k' = d.lookup k' := by
  unfold dictSet
  split
  · exact lookup_map_set_ne d k k' v hne
  · rw [List.lookup_append]
    have hbe : (k' == k) = false := by simp [hne]
    have h1 : List.lookup k' [(k, v)] = none := by
      rw [List.lookup_cons, hbe]
      exact rfl
    rw [h1]
    cases d.lookup k' <;> rfl

theorem strContains_append_middle (a r b : String) : strContains (a ++ r ++ b) r = true := by
  simp only [strContains, decide_eq_true_eq, String.data_append]
  exact ⟨a.data, b.data, by simp⟩

theorem lookup_some_mem {d : Dict} {k : String} {v : JVal}
    (h : List.lookup k d = some v) : (k, v) ∈ d := by
  induction d with
  | nil => simp [List.lookup] at h
  | cons kv t ih =>
    obtain ⟨k1, v1⟩ := kv
    rw [List.lookup_cons] at h
    rcases hbe : (k == k1) with _ | _
    · simp only [hbe] at h
      exact List.mem_cons_of_mem _ (ih h)
    · simp only [hbe] at h
      have hk : k = k1 := by simpa using hbe
      injection h with hv
      subst hk
      subst hv
      exact List.mem_cons_self _ _

theorem lookup_removeKey_ne (d : Dict) (k k0 : String) (hne : k ≠ k0) :
    List.lookup k (removeKey d k0) = List.lookup k d := by
  induction d with
  | nil => simp [removeKey]
  | cons kv t ih =>
    obtain ⟨k1, v1⟩ := kv
    rw [removeKey, List.filter_cons]
    by_cases hk : k1 = k0
    · subst hk
      have hbe : (k == k1) = false := by simp [hne]
      rw [if_neg (by simp), List.lookup_cons, hbe]
      exact ih
    · have hcond : decide ((k1, v1).1 ≠ k0) = true := by simp [hk]
      rw [if_pos hcond, List.lookup_cons, List.lookup_cons]
      cases hbe : (k == k1)
      · simp only [hbe]
        exact ih
      · simp only [hbe]

/-! ## C1: command deduplication -/

/-- C1, counterexample: for the spec's own example pair
`"python test_a.py"` and `"FOO=1 python test_a.py"` (same key
`"test_a.py"`), the deduplication of `run_error_command` retains the
SHORTER `"python test_a.py"` in both arrival orders — not the longer
`"FOO=1 python test_a.py"` the claim says is retained regardless of
arrival order. -/
theorem C1_longest_wins_counterexample :
    (dedup [("python test_a.py", 1), ("FOO=1 python test_a.py", 2)]).lookup "test_a.py"
        = some ("python test_a.py", 1) ∧
    (dedup [("FOO=1 python test_a.py", 2), ("python test_a.py", 1)]).lookup "test_a.py"
        = some ("python test_a.py", 1) ∧
    ("python test_a.py" : String) ≠ "FOO=1 python test_a.py" := by
  refine ⟨by decide, by decide, by decide⟩

/-- C1, amended: commands are grouped by the substring following the first
`"python "`.  A candidate whose text before `"python "` is empty always
replaces the stored pair (most-recent wins); a candidate with a non-empty
leading segment replaces a stored truthy pair only when its whole text is
STRICTLY SHORTER than the stored command — a longer or equal late-arriving
candidate is discarded; a candidate for a fresh key is always stored;
other keys are untouched.  In particular, for `"python test_a.py"` and
`"FOO=1 python test_a.py"` the shorter `"python test_a.py"` is the one
retained regardless of arrival order. -/
theorem dedupStep_eq_self_or_set (d : List (String × (String × Nat))) (c : String) (j : Nat) :
    dedupStep d (c, j) = d ∨
    dedupStep d (c, j) = dictSet d (pyPartition c "python ").2.2 (c, j) := by
  simp only [dedupStep]
  split
  · split
    · split
      · exact Or.inl rfl
      · exact Or.inr rfl
    · exact Or.inr rfl
  · exact Or.inr rfl

theorem C1_dedup_retention (d : List (String × (String × Nat))) (c : String) (j : Nat) :
    ((pyPartition c "python ").1 = "" →
       (dedupStep d (c, j)).lookup (pyPartition c "python ").2.2 = some (c, j)) ∧
    (d.lookup (pyPartition c "python ").2.2 = none →
       (dedupStep d (c, j)).lookup (pyPartition c "python ").2.2 = some (c, j)) ∧
    (∀ cmd id0, (pyPartition c "python ").1 ≠ "" →
       d.lookup (pyPartition c "python ").2.2 = some (cmd, id0) →
       (cmd ≠ "" ∨ id0 ≠ 0) →
       (dedupStep d (c, j)).lookup (pyPartition c "python ").2.2 =
         (if c.length < cmd.length then some (c, j) else some (cmd, id0))) ∧
    (∀ k, k ≠ (pyPartition c "python ").2.2 →
       (dedupStep d (c, j)).lookup k = d.lookup k) := by
  refine ⟨?_, ?_, ?_, ?_⟩
  · intro hb
    simp only [dedupStep]
    rw [if_neg (by simp [hb])]
    exact lookup_dictSet_self d _ (c, j)
  · intro hnone
    simp only [dedupStep]
    rw [hnone]
    rw [if_neg (by simp [pyAnyPair])]
    exact lookup_dictSet_self d _ (c, j)
  · intro cmd id0 hb hsome htruthy
    have hany : pyAnyPair (some (cmd, id0)) = true := by
      simp only [pyAnyPair]
      rcases htruthy with h | h <;> simp [h]
    simp only [dedupStep]
    rw [hsome, if_pos ⟨hb, hany⟩]
    dsimp only
    by_cases hlen : cmd.length ≤ c.length
    · rw [if_pos hlen, hsome, if_neg (by omega)]
    · rw [if_neg hlen, if_pos (by omega)]
      exact lookup_dictSet_self d _ (c, j)
  · intro k hk
    rcases dedupStep_eq_self_or_set d c j with h | h
    · rw [h]
    · rw [h]
      exact lookup_dictSet_ne d _ k (c, j) hk

/-- C1 witness: the amended retention rule applied at the spec's example —
`"FOO=1 python test_a.py"` arriving after `"python test_a.py"` is stored
under key `"test_a.py"` and is not shorter, so the stored
`("python test_a.py", 1)` survives. -/
theorem C1_dedup_retention_witness :
    (dedupStep [("test_a.py", ("python test_a.py", 1))] ("FOO=1 python test_a.py", 2)).lookup
        (pyPartition "FOO=1 python test_a.py" "python ").2.2 =
      (if ("FOO=1 python test_a.py" : String).length < ("python test_a.py" : String).length
       then some ("FOO=1 python test_a.py", 2) else some ("python test_a.py", 1)) :=
  (C1_dedup_retention [("test_a.py", ("python test_a.py", 1))] "FOO=1 python test_a.py" 2).2.2.1
    "python test_a.py" 1 (by decide) (by decide) (by decide)

/-! ## C5: bounded polling -/

/-- C5: the claim says a non-zero wait budget bounds the polling loop.  It
does not: with wait budget 1 second and a run whose job-list fetch always
reports a job with an empty (pending) conclusion, the loop of
`_get_failures` never exits, for any number of iterations — the `seconds`
argument is used only as the per-iteration sleep length and is never
decremented (and in fact `time` is never imported, so the first sleep
raises `NameError`). -/
theorem C5_polling_never_exits :
    ∀ fuel : Nat, get_failures (fun _ => [⟨1, ""⟩]) 1 fuel = none := by
  intro fuel
  suffices h : ∀ fuel : Nat, pollLoop (fun _ => [⟨1, ""⟩]) 1 fuel = none by
    simp [get_failures, h fuel]
  intro fuel
  induction fuel with
  | zero => rfl
  | succ n ih => simp [pollLoop, notFinishedCount, ih]

/-! ## C6: polling short-circuit at zero budget -/

/-- C6: with wait budget 0 the loop of `_get_failures` exits after the
first fetch with zero sleeps, the reported failures are exactly the jobs
whose conclusion equals `"failure"` (so no pending job, whose conclusion is
empty, is included), and the result depends only on the first fetch — no
re-fetch happens. -/
theorem C6_zero_budget (fetch : Nat → List Job) :
    get_failures fetch 0 1 =
      some ((fetch 0).filter (fun j => j.conclusion = FAILURE), 0) ∧
    (∀ j, j ∈ (fetch 0).filter (fun j => j.conclusion = FAILURE) → j.conclusion ≠ "") ∧
    (∀ g : Nat → List Job, g 0 = fetch 0 → get_failures g 0 1 = get_failures fetch 0 1) := by
  refine ⟨by simp [get_failures, pollLoop], ?_, ?_⟩
  · intro j hj
    rw [List.mem_filter] at hj
    have : j.conclusion = FAILURE := by simpa using hj.2
    rw [this]
    simp [FAILURE]
  · intro g hg
    simp [get_failures, pollLoop, hg]

/-- C6 witness: a fetch whose first page holds one pending, one failed and
one successful job: harvesting with budget 0 returns exactly the failed
job with zero sleeps, and it is not pending. -/
theorem C6_zero_budget_witness :
    get_failures (fun _ => [⟨1, ""⟩, ⟨2, "failure"⟩, ⟨3, "success"⟩]) 0 1 =
      some ([⟨2, "failure"⟩], 0) ∧
    (⟨2, "failure"⟩ : Job).conclusion ≠ "" := by
  refine ⟨?_, ?_⟩
  · have h := (C6_zero_budget (fun _ => [⟨1, ""⟩, ⟨2, "failure"⟩, ⟨3, "success"⟩])).1
    rw [h]
    decide
  · exact (C6_zero_budget (fun _ => [⟨1, ""⟩, ⟨2, "failure"⟩, ⟨3, "success"⟩])).2.1
      ⟨2, "failure"⟩ (by decide)

/-! ## C7: log-command extraction -/

/-- C7, counterexample: the code's regex `([A-Z_]+=.*)|python` is used with
`re.match`, which only anchors at the start, so the token `python3` stops
the dropping loop although it is neither an environment assignment nor the
literal token `python` that the claim requires.  On a log whose line after
the marker is `"cd python3 tests"` the code extracts `"python3 tests"`,
while the claim's literal-token rule extracts `""`. -/
theorem C7_literal_python_counterexample :
    get_command [COMMAND, "cd python3 tests"] = some "python3 tests" ∧
    claim_get_command [COMMAND, "cd python3 tests"] = some "" ∧
    some ("python3 tests" : String) ≠ some "" := by
  refine ⟨by decide, by decide, by decide⟩

/-- C7, amended: a job whose log has no line containing the marker phrase
contributes `""` (which the caller drops — not an error); otherwise the
line after the first marker line is split on whitespace, tokens are dropped
from the front until the first remaining token matches the
environment-assignment pattern `[A-Z_]+=...` or BEGINS WITH `python`
(prefix-anchored match, not the literal token), and the remaining tokens
rejoined with single spaces form the command; in particular a next line of
`"cd repo && FOO=1 python test_x.py -k bar"` yields
`"FOO=1 python test_x.py -k bar"`. -/
theorem C7_get_command_spec :
    (∀ lines : List String, (∀ li ∈ lines, strContains li COMMAND = false) →
        get_command lines = some "") ∧
    (∀ (lines : List String) (i : Nat) (nxt : String),
        lines.findIdx? (fun li => strContains li COMMAND) = some i →
        lines.get? (i + 1) = some nxt →
        ∃ dropped kept, pySplit nxt = dropped ++ kept ∧
          (∀ w ∈ dropped, matchPythonCommand w = false) ∧
          (∀ w, kept.head? = some w → matchPythonCommand w = true) ∧
          get_command lines = some (String.intercalate " " kept)) ∧
    get_command [COMMAND, "cd repo && FOO=1 python test_x.py -k bar"]
      = some "FOO=1 python test_x.py -k bar" := by
  refine ⟨?_, ?_, by decide⟩
  · intro lines h
    have hnone : lines.findIdx? (fun li => strContains li COMMAND) = none :=
      List.findIdx?_eq_none_iff.mpr h
    rw [get_command, hnone]
  · intro lines i nxt hidx hget
    refine ⟨(pySplit nxt).takeWhile (fun w => !matchPythonCommand w),
            (pySplit nxt).dropWhile (fun w => !matchPythonCommand w),
            (List.takeWhile_append_dropWhile _ _).symm, ?_, ?_, ?_⟩
    · intro w hw
      have := List.mem_takeWhile_imp hw
      simpa using this
    · intro w hw
      have h2 := List.head?_dropWhile_not (fun w => !matchPythonCommand w) (pySplit nxt)
      rw [hw] at h2
      simpa using h2
    · rw [get_command, hidx]
      dsimp only
      rw [hget]

/-- C7 witness: the amended extraction rule applied at the spec's example
log line. -/
theorem C7_get_command_spec_witness :
    ∃ dropped kept,
      pySplit "cd repo && FOO=1 python test_x.py -k bar" = dropped ++ kept ∧
      (∀ w ∈ dropped, matchPythonCommand w = false) ∧
      (∀ w, kept.head? = some w → matchPythonCommand w = true) ∧
      get_command [COMMAND, "cd repo && FOO=1 python test_x.py -k bar"]
        = some (String.intercalate " " kept) :=
  C7_get_command_spec.2.1 [COMMAND, "cd repo && FOO=1 python test_x.py -k bar"] 0
    "cd repo && FOO=1 python test_x.py -k bar" (by decide) (by decide)

/-! ## C3: pull-number digit count -/

/-- C3, counterexample: a commit message with exactly one
`Pull Request resolved:` line whose URL suffix is the numeric id `12345`
(5 digits).  Extraction does not return the id: the
`assert pull.isnumeric() and len(pull) in (6, 7)` of pullman.py line 168
raises `AssertionError` — a hard failure, not a warning. -/
theorem C3_digit_count_counterexample :
    get_ghstack_message
      ["    Subject",
       "    Pull Request resolved: https://github.com/pytorch/pytorch/pull/12345"]
      = .error (.assertPullNumber "12345") := by decide

/-- C3, amended: for a commit message whose indented body is non-empty and
contains exactly one `Pull Request resolved:` line with remainder `url`,
extraction succeeds with the numeric id parsed from `url` only when that id
has 6 or 7 digits; a numeric id of any other digit count (and a non-numeric
suffix) makes the `assert` of pullman.py line 168 raise `AssertionError` —
a hard failure, not a warning. -/
theorem C3_digit_count_assert (logLines : List String) (url pull : String)
    (hne : (ghIndented logLines).isEmpty = false)
    (hurls : ghUrls (ghIndented logLines) = [url])
    (hpull : pull = pyStrip (pyPartition url PULL_PREFIX).2.2) :
    (pyIsNumeric pull = true → (pull.length = 6 ∨ pull.length = 7) →
       get_ghstack_message logLines = .ok (pull, ghCleanedLines (ghIndented logLines))) ∧
    (pyIsNumeric pull = false ∨ (pull.length ≠ 6 ∧ pull.length ≠ 7) →
       get_ghstack_message logLines = .error (.assertPullNumber pull)) := by
  subst hpull
  constructor
  · intro hnum hlen
    have hcond : (pyIsNumeric (pyStrip (pyPartition url PULL_PREFIX).2.2)
        && (decide ((pyStrip (pyPartition url PULL_PREFIX).2.2).length = 6)
            || decide ((pyStrip (pyPartition url PULL_PREFIX).2.2).length = 7))) = true := by
      rcases hlen with h | h <;> simp [hnum, h]
    simp only [get_ghstack_message, hne, Bool.false_eq_true, if_false, hurls]
    rw [hcond]
    exact rfl
  · intro hfail
    have hcond : (pyIsNumeric (pyStrip (pyPartition url PULL_PREFIX).2.2)
        && (decide ((pyStrip (pyPartition url PULL_PREFIX).2.2).length = 6)
            || decide ((pyStrip (pyPartition url PULL_PREFIX).2.2).length = 7))) = false := by
      rcases hfail with h | h2
      · simp [h]
      · simp [h2.1, h2.2]
    simp only [get_ghstack_message, hne, Bool.false_eq_true, if_false, hurls]
    rw [hcond]
    exact rfl

/-- C3 witness: a 6-digit id passes the assert and extraction returns it. -/
theorem C3_digit_count_assert_witness :
    get_ghstack_message
      ["    Subject",
       "    Pull Request resolved: https://github.com/pytorch/pytorch/pull/123456"]
      = .ok ("123456",
          ghCleanedLines (ghIndented
            ["    Subject",
             "    Pull Request resolved: https://github.com/pytorch/pytorch/pull/123456"])) :=
  (C3_digit_count_assert
      ["    Subject",
       "    Pull Request resolved: https://github.com/pytorch/pytorch/pull/123456"]
      "https://github.com/pytorch/pytorch/pull/123456" "123456"
      (by decide) (by decide) (by decide)).1 (by decide) (Or.inl (by decide))

/-! ## C8: search tie-break -/

theorem data_colon_slash (s : String) : (":/" ++ s).data = ':' :: '/' :: s.data := by
  rw [String.data_append]
  exact rfl

theorem startsWith_hash_of_colon_slash (s : String) :
    pyStartsWith (":/" ++ s) "#" = false := by
  have h : "#".data = ['#'] := rfl
  rw [pyStartsWith, data_colon_slash, h]
  simp [List.cons_prefix_cons]

theorem startsWith_colon_slash (s : String) : pyStartsWith (":/" ++ s) ":/" = true := by
  have h : ":/".data = [':', '/'] := rfl
  rw [pyStartsWith, data_colon_slash, h]
  simp [List.cons_prefix_cons]

theorem pyDrop_two_colon_slash (s : String) : pyDrop 2 (":/" ++ s) = s := by
  rw [pyDrop, data_colon_slash]
  exact rfl

/-- C8: a query beginning with `:/` resolves to the LAST entry (in list
order) of the current user's list whose subject contains the stripped
search text as a case-sensitive substring; when no subject contains it,
resolution fails with a `PullError` whose message contains the search text;
and on subjects `["fix a", "fix b", "fix a again"]` the query `":/fix a"`
resolves to the entry with subject `"fix a again"`. -/
theorem C8_search_tie_break (pulls : List (String × List PR)) (user : String) (s : String)
    (l : List PR) (gh : Option (List String)) (hl : pulls.lookup user = some l) :
    (∀ p, (l.filter (fun q => strContains q.subject s)).getLast? = some p →
        matching_pull pulls user (":/" ++ s) gh = .ok p) ∧
    ((l.filter (fun q => strContains q.subject s)).getLast? = none →
        ∃ msg, matching_pull pulls user (":/" ++ s) gh = .error (.pullError msg) ∧
          strContains msg s = true) ∧
    matching_pull [("u", [⟨"1", "fix a"⟩, ⟨"2", "fix b"⟩, ⟨"3", "fix a again"⟩])] "u"
        ":/fix a" gh = .ok ⟨"3", "fix a again"⟩ := by
  have hred : matching_pull pulls user (":/" ++ s) gh = pullSearch pulls user (":/" ++ s) s := by
    rw [matching_pull.eq_def, startsWith_hash_of_colon_slash s, startsWith_colon_slash s,
      pyDrop_two_colon_slash s]
    simp
  refine ⟨?_, ?_, ?_⟩
  · intro p hp
    rw [hred, pullSearch, hl]
    dsimp only
    rw [hp]
  · intro hnone
    refine ⟨"Can't find any commits matching '" ++ (":/" ++ s) ++ "'", ?_, ?_⟩
    · rw [hred, pullSearch, hl]
      dsimp only
      rw [hnone]
    · rw [← String.append_assoc]
      exact strContains_append_middle _ s "'"
  · rw [matching_pull.eq_def]
    rw [show pyStartsWith ":/fix a" "#" = false from by decide]
    rw [show pyStartsWith ":/fix a" ":/" = true from by decide]
    simp only [Bool.false_eq_true, if_false, if_true]
    decide

/-- C8 witness: the tie-break applied at the spec's example list. -/
theorem C8_search_tie_break_witness :
    matching_pull [("u", [⟨"1", "fix a"⟩, ⟨"2", "fix b"⟩, ⟨"3", "fix a again"⟩])] "u"
        (":/" ++ "fix a") none = .ok ⟨"3", "fix a again"⟩ :=
  (C8_search_tie_break [("u", [⟨"1", "fix a"⟩, ⟨"2", "fix b"⟩, ⟨"3", "fix a again"⟩])]
      "u" "fix a" [⟨"1", "fix a"⟩, ⟨"2", "fix b"⟩, ⟨"3", "fix a again"⟩] none (by decide)).1
    ⟨"3", "fix a again"⟩ (by decide)

/-! ## C2: resolver fallback -/

/-- C2, counterexample: query `"mybranch"` (no `#`/`:/` prefix), the git
log query succeeds and ghstack extraction returns id `999999`, but no known
entry has that number.  The claim says resolution then falls back to the
substring search with `"mybranch"` — which here would succeed — but the
code's `with suppress(CalledProcessError)` does not catch the `PullError`
raised by `_get_pull`, so the error propagates instead. -/
theorem C2_fallback_counterexample :
    matching_pull [("alice", [⟨"111111", "mybranch work"⟩])] "alice" "mybranch"
        (some ["    Subject",
               "    Pull Request resolved: https://github.com/pytorch/pytorch/pull/999999"])
      = .error (.pullError "No such pull request (rerun with -fw if you know it exists)") ∧
    pullSearch [("alice", [⟨"111111", "mybranch work"⟩])] "alice" "mybranch" "mybranch"
      = .ok ⟨"111111", "mybranch work"⟩ := by
  refine ⟨by decide, by decide⟩

/-- C2, amended: for a query with no `#`/`:/` prefix, the fallback to the
current user's substring search happens only when the git commit-message
command itself fails (`CalledProcessError`, modelled `ghLog = none`): then
a non-numeric query searches directly, and a numeric query first retries
the exact lookup, searching only if that raises `PullError`.  When the git
command succeeds, a `PullError`/`AssertionError` raised inside
`_get_ghstack_message` propagates, and so does the `PullError` of the exact
`_get_pull` lookup on the extracted number — no fallback. -/
theorem C2_fallback_behavior (pulls : List (String × List PR)) (user : String) (pull : String)
    (h1 : pyStartsWith pull "#" = false) (h2 : pyStartsWith pull ":/" = false) :
    (∀ L n ls, get_ghstack_message L = .ok (n, ls) →
        matching_pull pulls user pull (some L) = get_pull pulls n) ∧
    (∀ L e, get_ghstack_message L = .error e →
        matching_pull pulls user pull (some L) = .error (ghMsgErrToMatch e)) ∧
    (pyIsNumeric pull = false →
        matching_pull pulls user pull none = pullSearch pulls user pull pull) ∧
    (pyIsNumeric pull = true → ∀ p, get_pull pulls pull = .ok p →
        matching_pull pulls user pull none = .ok p) ∧
    (pyIsNumeric pull = true → ∀ e, get_pull pulls pull = .error e →
        matching_pull pulls user pull none = pullSearch pulls user pull pull) := by
  refine ⟨?_, ?_, ?_, ?_, ?_⟩
  · intro L n ls hok
    simp only [matching_pull, h1, h2, Bool.false_eq_true, if_false]
    rw [hok]
  · intro L e herr
    simp only [matching_pull, h1, h2, Bool.false_eq_true, if_false]
    rw [herr]
  · intro hnum
    simp only [matching_pull, h1, h2, hnum, Bool.false_eq_true, if_false]
  · intro hnum p hp
    simp only [matching_pull, h1, h2, hnum, Bool.false_eq_true, if_false, if_true]
    rw [hp]
  · intro hnum e he
    simp only [matching_pull, h1, h2, hnum, Bool.false_eq_true, if_false, if_true]
    rw [he]

/-- C2 witness: extraction succeeds with id `123456`, which is known, so
resolution is the exact lookup's result. -/
theorem C2_fallback_behavior_witness :
    matching_pull [("alice", [⟨"123456", "some branch"⟩])] "alice" "mybranch"
        (some ["    Subject",
               "    Pull Request resolved: https://github.com/pytorch/pytorch/pull/123456"])
      = get_pull [("alice", [⟨"123456", "some branch"⟩])] "123456" :=
  (C2_fallback_behavior [("alice", [⟨"123456", "some branch"⟩])] "alice" "mybranch"
      (by decide) (by decide)).1
    ["    Subject",
     "    Pull Request resolved: https://github.com/pytorch/pytorch/pull/123456"]
    "123456"
    (ghCleanedLines (ghIndented
      ["    Subject",
       "    Pull Request resolved: https://github.com/pytorch/pytorch/pull/123456"]))
    (by decide)

/-! ## C4: reference parsing -/

theorem data_asString (l : List Char) : (List.asString l).data = l := rfl

theorem splitChar_ne_nil (c : Char) (l : List Char) : splitChar c l ≠ [] := by
  cases l with
  | nil => simp [splitChar]
  | cons a as =>
    by_cases h : a = c
    · simp [splitChar, h]
    · simp only [splitChar, if_neg h]
      rcases hs : splitChar c as with _ | ⟨h1, t⟩ <;> simp

theorem splitChar_no_sep (c : Char) (l : List Char) (h : c ∉ l) : splitChar c l = [l] := by
  induction l with
  | nil => rfl
  | cons a as ih =>
    have ha : a ≠ c := fun e => h (by simp [e])
    have has : c ∉ as := fun m => h (List.mem_cons_of_mem _ m)
    simp [splitChar, ha, ih has]

theorem splitChar_append (c : Char) (xs ys : List Char) (h : c ∉ xs) :
    splitChar c (xs ++ c :: ys) = xs :: splitChar c ys := by
  induction xs with
  | nil => simp [splitChar]
  | cons a t ih =>
    have ha : a ≠ c := fun e => h (by simp [e])
    have ht : c ∉ t := fun m => h (List.mem_cons_of_mem _ m)
    simp [splitChar, ha, ih ht]

/-- Inverse of `splitChar`: rejoin with the separator. -/
def joinChar (c : Char) : List (List Char) → List Char
  | [] => []
  | [x] => x
  | x :: y :: t => x ++ c :: joinChar c (y :: t)

theorem joinChar_cons_cons (c a : Char) (x : List Char) (t : List (List Char)) :
    joinChar c ((a :: x) :: t) = a :: joinChar c (x :: t) := by
  cases t <;> rfl

theorem joinChar_splitChar (c : Char) (l : List Char) : joinChar c (splitChar c l) = l := by
  induction l with
  | nil => rfl
  | cons a as ih =>
    by_cases h : a = c
    · subst h
      simp only [splitChar, if_pos rfl]
      rcases hs : splitChar a as with _ | ⟨h1, t⟩
      · exact absurd hs (splitChar_ne_nil a as)
      · rw [hs] at ih
        show [] ++ a :: joinChar a (h1 :: t) = a :: as
        rw [List.nil_append, ih]
    · simp only [splitChar, if_neg h]
      rcases hs : splitChar c as with _ | ⟨h1, t⟩
      · exact absurd hs (splitChar_ne_nil c as)
      · rw [hs] at ih
        rw [joinChar_cons_cons, ih]

theorem pySplitSlash_five (ref a b c d e : String)
    (h : pySplitSlash ref = [a, b, c, d, e]) :
    ref = a ++ "/" ++ b ++ "/" ++ c ++ "/" ++ d ++ "/" ++ e := by
  have h2 : splitChar '/' ref.data = [a.data, b.data, c.data, d.data, e.data] := by
    have h1 := congrArg (List.map String.data) h
    have hcomp : String.data ∘ List.asString = id := funext fun l => rfl
    rw [pySplitSlash, List.map_map, hcomp, List.map_id] at h1
    simpa using h1
  have h3 := joinChar_splitChar '/' ref.data
  rw [h2] at h3
  have h4 : joinChar '/' [a.data, b.data, c.data, d.data, e.data]
      = a.data ++ '/' :: (b.data ++ '/' :: (c.data ++ '/' :: (d.data ++ '/' :: e.data))) := rfl
  have h5 : ref.data
      = a.data ++ '/' :: (b.data ++ '/' :: (c.data ++ '/' :: (d.data ++ '/' :: e.data))) := by
    rw [← h3, h4]
  have h6 : (a ++ "/" ++ b ++ "/" ++ c ++ "/" ++ d ++ "/" ++ e).data
      = a.data ++ '/' :: (b.data ++ '/' :: (c.data ++ '/' :: (d.data ++ '/' :: e.data))) := by
    simp only [String.data_append, show ("/" : String).data = ['/'] from rfl,
      List.cons_append, List.nil_append, List.singleton_append, List.append_assoc]
  calc ref = List.asString ref.data := rfl
    _ = List.asString ((a ++ "/" ++ b ++ "/" ++ c ++ "/" ++ d ++ "/" ++ e).data) := by
          rw [h5, h6]
    _ = a ++ "/" ++ b ++ "/" ++ c ++ "/" ++ d ++ "/" ++ e := rfl

theorem ref_shape_fold (u idx : String) :
    "upstream/gh/" ++ u ++ "/" ++ idx ++ "/orig"
      = "upstream" ++ "/" ++ "gh" ++ "/" ++ u ++ "/" ++ idx ++ "/" ++ "orig" := by
  have e0 : ("upstream/gh/" : String) = "upstream" ++ "/" ++ "gh" ++ "/" := by decide
  have e1 : ("/orig" : String) = "/" ++ "orig" := by decide
  rw [e0, e1]
  simp [String.append_assoc]

theorem pySplitSlash_shape (u idx : String) (hu : '/' ∉ u.data) (hi : '/' ∉ idx.data) :
    pySplitSlash ("upstream/gh/" ++ u ++ "/" ++ idx ++ "/orig")
      = ["upstream", "gh", u, idx, "orig"] := by
  rw [ref_shape_fold, pySplitSlash]
  have hd : ("upstream" ++ "/" ++ "gh" ++ "/" ++ u ++ "/" ++ idx ++ "/" ++ "orig").data
      = "upstream".data ++ '/' :: ("gh".data ++ '/' :: (u.data ++ '/' ::
          (idx.data ++ '/' :: "orig".data))) := by
    simp only [String.data_append, show ("/" : String).data = ['/'] from rfl,
      List.cons_append, List.nil_append, List.singleton_append, List.append_assoc]
  rw [hd, splitChar_append _ _ _ (by decide), splitChar_append _ _ _ (by decide),
    splitChar_append _ _ _ hu, splitChar_append _ _ _ hi,
    splitChar_no_sep _ _ (by decide)]
  rfl

/-- C4, counterexample: the 5-segment ref `upstream/gh/alice/1/main` (last
segment not `orig`) fails with the fixed message
`"Waiting for orig branch"`, which does not name the offending ref —
contradicting the claim that every failing shape yields an error naming the
ref. -/
theorem C4_ref_error_counterexample :
    user_index "upstream/gh/alice/1/main" = .error "Waiting for orig branch" ∧
    strContains "Waiting for orig branch" "upstream/gh/alice/1/main" = false := by
  refine ⟨by decide, by decide⟩

/-- C4, amended: parsing succeeds exactly for refs of shape
`upstream/gh/<user>/<index>/orig` with `<index>` numeric, returning
`(user, index)`; every other shape fails with a `PullError`, and the
shape-to-message mapping is determinate: a ref with a segment count other
than 5, and a 5-segment ref ending in `orig` whose first segment is not
`upstream`, second segment not `gh`, or index not numeric, all fail with
`"Do not understand git reference '<ref>'"` — a message naming the
offending ref — while a 5-segment ref with a last segment other than
`orig` fails with the fixed `"Waiting for orig branch"`, which does not
mention the ref. -/
theorem C4_ref_parse (ref : String) :
    (∀ u idx, '/' ∉ u.data → '/' ∉ idx.data → pyIsNumeric idx = true →
        ref = "upstream/gh/" ++ u ++ "/" ++ idx ++ "/orig" →
        user_index ref = .ok (u, (idx.toNat?).getD 0)) ∧
    (∀ u n, user_index ref = .ok (u, n) →
        ∃ idx, pyIsNumeric idx = true ∧ n = (idx.toNat?).getD 0 ∧
          ref = "upstream/gh/" ++ u ++ "/" ++ idx ++ "/orig") ∧
    (∀ msg, user_index ref = .error msg →
        msg = "Waiting for orig branch" ∨ strContains msg ref = true) ∧
    ((pySplitSlash ref).length ≠ 5 →
        user_index ref = .error ("Do not understand git reference '" ++ ref ++ "'")) ∧
    (∀ p1 p2 p3 p4 p5, pySplitSlash ref = [p1, p2, p3, p4, p5] → p5 ≠ "orig" →
        user_index ref = .error "Waiting for orig branch") ∧
    (∀ p1 p2 p3 p4 p5, pySplitSlash ref = [p1, p2, p3, p4, p5] → p5 = "orig" →
        (p1 ≠ "upstream" ∨ p2 ≠ "gh" ∨ pyIsNumeric p4 = false) →
        user_index ref = .error ("Do not understand git reference '" ++ ref ++ "'")) ∧
    strContains ("Do not understand git reference '" ++ ref ++ "'") ref = true := by
  refine ⟨?_, ?_, ?_, ?_, ?_, ?_, strContains_append_middle _ ref _⟩
  · intro u idx hu hi hnum href
    subst href
    rw [user_index.eq_def, pySplitSlash_shape u idx hu hi]
    dsimp only
    rw [if_neg (by simp), if_pos (by simp [hnum])]
  · intro u n h
    rcases hsp : pySplitSlash ref with _ | ⟨p1, _ | ⟨p2, _ | ⟨p3, _ | ⟨p4, _ | ⟨p5, _ | ⟨p6, t6⟩⟩⟩⟩⟩⟩ <;>
      rw [user_index.eq_def, hsp] at h <;> dsimp only at h
    · cases h
    · cases h
    · cases h
    · cases h
    · cases h
    · split at h
      · cases h
      · split at h
        · rename_i h5 hcond
          simp only [Bool.and_eq_true, decide_eq_true_eq] at hcond
          obtain ⟨⟨hp1, hp2⟩, hp4⟩ := hcond
          simp only [Except.ok.injEq, Prod.mk.injEq] at h
          obtain ⟨hp3, hn⟩ := h
          have h5o : p5 = "orig" := by
            by_contra hcon
            exact h5 hcon
          refine ⟨p4, hp4, hn.symm, ?_⟩
          have hjoin := pySplitSlash_five ref p1 p2 p3 p4 p5 hsp
          rw [hp1, hp2, hp3, h5o] at hjoin
          rw [hjoin, ref_shape_fold]
        · cases h
    · cases h
  · intro msg h
    rcases hsp : pySplitSlash ref with _ | ⟨p1, _ | ⟨p2, _ | ⟨p3, _ | ⟨p4, _ | ⟨p5, _ | ⟨p6, t6⟩⟩⟩⟩⟩⟩ <;>
      rw [user_index.eq_def, hsp] at h <;> dsimp only at h
    · injection h with h2
      exact Or.inr (h2 ▸ strContains_append_middle _ ref _)
    · injection h with h2
      exact Or.inr (h2 ▸ strContains_append_middle _ ref _)
    · injection h with h2
      exact Or.inr (h2 ▸ strContains_append_middle _ ref _)
    · injection h with h2
      exact Or.inr (h2 ▸ strContains_append_middle _ ref _)
    · injection h with h2
      exact Or.inr (h2 ▸ strContains_append_middle _ ref _)
    · split at h
      · injection h with h2
        exact Or.inl h2.symm
      · split at h
        · cases h
        · injection h with h2
          exact Or.inr (h2 ▸ strContains_append_middle _ ref _)
    · injection h with h2
      exact Or.inr (h2 ▸ strContains_append_middle _ ref _)
  · intro hlen
    rcases hsp : pySplitSlash ref with _ | ⟨p1, _ | ⟨p2, _ | ⟨p3, _ | ⟨p4, _ | ⟨p5, _ | ⟨p6, t6⟩⟩⟩⟩⟩⟩ <;>
      rw [user_index.eq_def, hsp] <;> dsimp only <;>
      first
        | rfl
        | exact absurd (by rw [hsp]; rfl) hlen
  · intro p1 p2 p3 p4 p5 hsp h5
    rw [user_index.eq_def, hsp]
    dsimp only
    rw [if_pos h5]
  · intro p1 p2 p3 p4 p5 hsp h5 hbad
    rw [user_index.eq_def, hsp]
    dsimp only
    rw [if_neg (by simp [h5])]
    have hb : ¬ ((p1 = "upstream" && p2 = "gh" && pyIsNumeric p4) = true) := by
      intro hc
      simp only [Bool.and_eq_true, decide_eq_true_eq] at hc
      rcases hbad with h | h | h
      · exact h hc.1.1
      · exact h hc.1.2
      · rw [hc.2] at h
        cases h
    rw [if_neg hb]

/-- C4 witness: a well-shaped ref parses to its user and numeric index, and
a 4-segment ref fails with the message naming it. -/
theorem C4_ref_parse_witness :
    user_index ("upstream/gh/" ++ "alice" ++ "/" ++ "123456" ++ "/orig")
      = .ok ("alice", (("123456" : String).toNat?).getD 0) ∧
    user_index "upstream/gh/alice/orig"
      = .error ("Do not understand git reference '" ++ "upstream/gh/alice/orig" ++ "'") :=
  ⟨(C4_ref_parse ("upstream/gh/" ++ "alice" ++ "/" ++ "123456" ++ "/orig")).1
      "alice" "123456" (by decide) (by decide) (by decide) rfl,
   (C4_ref_parse "upstream/gh/alice/orig").2.2.2.1 (by decide)⟩

/-! ## C9: cache round-trip -/

/-- C9: an entity whose four recognized fields (`ref`, `is_open`,
`pull_message`, `pull_number`) are materialized — and whose memoized
`subject`, if present, is the first line of its `pull_message`, which the
memoization invariant guarantees — serializes through `asdict` and
reconstructs through `fromdict` to an entity with identical `pull_number`,
identical `subject` (first line of `pull_message`) and identical
`is_open`. -/
theorem C9_cache_round_trip (e : Dict) (r pn : String) (bo : Bool) (s0 : String)
    (rest : List String)
    (hr : List.lookup "ref" e = some (.s r))
    (hpm : List.lookup "pull_message" e = some (.l (s0 :: rest)))
    (hpn : List.lookup "pull_number" e = some (.s pn))
    (ho : List.lookup "is_open" e = some (.b bo))
    (hsub : List.lookup "subject" e = none ∨ List.lookup "subject" e = some (.s s0)) :
    ∃ e2, fromdict (asdict e) = some e2 ∧
      attr_pull_number e2 = attr_pull_number e ∧
      attr_subject e2 = attr_subject e ∧
      attr_is_open e2 = attr_is_open e := by
  have hasd : asdict e = [("is_open", .b bo), ("pull_message", .l (s0 :: rest)),
      ("pull_number", .s pn), ("ref", .s r)] := by
    simp [asdict, FIELDS, hr, hpm, hpn, ho]
  refine ⟨[("ref", .s r), ("is_open", .b bo), ("pull_message", .l (s0 :: rest)),
      ("pull_number", .s pn)], ?_, ?_, ?_, ?_⟩
  · rw [fromdict, hasd]
    simp [removeKey, List.lookup_cons]
  · simp [attr_pull_number, List.lookup_cons, hpn]
  · rcases hsub with hs | hs
    · simp [attr_subject, List.lookup_cons, hs, hpm]
    · simp [attr_subject, List.lookup_cons, hs, hpm]
  · simp [attr_is_open, List.lookup_cons, ho]

/-- C9 witness: the round-trip at a concrete fully-materialized entity. -/
theorem C9_cache_round_trip_witness :
    ∃ e2, fromdict (asdict [("ref", JVal.s "upstream/gh/a/1/orig"), ("is_open", JVal.b true),
        ("pull_message", JVal.l ["subj", "body"]), ("pull_number", JVal.s "123456")])
        = some e2 ∧
      attr_pull_number e2 = attr_pull_number [("ref", JVal.s "upstream/gh/a/1/orig"),
        ("is_open", JVal.b true), ("pull_message", JVal.l ["subj", "body"]),
        ("pull_number", JVal.s "123456")] ∧
      attr_subject e2 = attr_subject [("ref", JVal.s "upstream/gh/a/1/orig"),
        ("is_open", JVal.b true), ("pull_message", JVal.l ["subj", "body"]),
        ("pull_number", JVal.s "123456")] ∧
      attr_is_open e2 = attr_is_open [("ref", JVal.s "upstream/gh/a/1/orig"),
        ("is_open", JVal.b true), ("pull_message", JVal.l ["subj", "body"]),
        ("pull_number", JVal.s "123456")] :=
  C9_cache_round_trip _ "upstream/gh/a/1/orig" "123456" true "subj" ["body"]
    (by decide) (by decide) (by decide) (by decide) (Or.inl (by decide))

/-! ## C10: unknown cache keys on load -/

/-- C10, counterexample: two cache records agreeing on all four recognized
keys, one carrying the extra key `subject`.  `fromdict` copies ALL keys
into the instance `__dict__` (`pr.__dict__.update(kwargs)`), and a stored
`subject` preempts the `cached_property` that would derive it from
`pull_message`, so the two loaded entities differ observably: the first
reports subject `"a"`, the second the hijacked `"HIJACKED"`. -/
theorem C10_extra_key_counterexample :
    (FIELDS.all (fun f =>
        List.lookup f [("ref", JVal.s "r"), ("is_open", JVal.b true),
            ("pull_message", JVal.l ["a"]), ("pull_number", JVal.s "123456"),
            ("subject", JVal.s "HIJACKED")]
          == List.lookup f [("ref", JVal.s "r"), ("is_open", JVal.b true),
            ("pull_message", JVal.l ["a"]), ("pull_number", JVal.s "123456")])) = true ∧
    (fromdict [("ref", JVal.s "r"), ("is_open", JVal.b true), ("pull_message", JVal.l ["a"]),
        ("pull_number", JVal.s "123456")]).map attr_subject = some (some (JVal.s "a")) ∧
    (fromdict [("ref", JVal.s "r"), ("is_open", JVal.b true), ("pull_message", JVal.l ["a"]),
        ("pull_number", JVal.s "123456"), ("subject", JVal.s "HIJACKED")]).map attr_subject
      = some (some (JVal.s "HIJACKED")) := by
  refine ⟨by decide, by decide, by decide⟩

/-- C10, amended: extra keys that do not collide with any memoized
(`cached_property`) attribute name have no observable effect: two records
agreeing on the recognized keys whose extra keys all avoid
`CACHED_PROPS` load to entities with equal `pull_number`, `subject` and
`is_open` observables.  (A colliding extra key such as `subject` is stored
into `__dict__` and overrides the derived value — see the
counterexample.) -/
theorem C10_unknown_keys_ignored (r1 r2 : Dict)
    (hagree : ∀ f ∈ FIELDS, List.lookup f r1 = List.lookup f r2)
    (hx1 : ∀ kv ∈ r1, kv.1 ∈ FIELDS ∨ kv.1 ∉ CACHED_PROPS)
    (hx2 : ∀ kv ∈ r2, kv.1 ∈ FIELDS ∨ kv.1 ∉ CACHED_PROPS) :
    (fromdict r1).map attr_pull_number = (fromdict r2).map attr_pull_number ∧
    (fromdict r1).map attr_subject = (fromdict r2).map attr_subject ∧
    (fromdict r1).map attr_is_open = (fromdict r2).map attr_is_open := by
  have href : List.lookup "ref" r1 = List.lookup "ref" r2 :=
    hagree "ref" (by simp [FIELDS])
  have hpm : List.lookup "pull_message" r1 = List.lookup "pull_message" r2 :=
    hagree "pull_message" (by simp [FIELDS])
  have hpn : List.lookup "pull_number" r1 = List.lookup "pull_number" r2 :=
    hagree "pull_number" (by simp [FIELDS])
  have hio : List.lookup "is_open" r1 = List.lookup "is_open" r2 :=
    hagree "is_open" (by simp [FIELDS])
  have hsubj : ∀ (r : Dict), (∀ kv ∈ r, kv.1 ∈ FIELDS ∨ kv.1 ∉ CACHED_PROPS) →
      List.lookup "subject" r = none := by
    intro r hx
    rcases hs : List.lookup "subject" r with _ | v0
    · rfl
    · exfalso
      rcases hx _ (lookup_some_mem hs) with hin | hnin
      · simp [FIELDS] at hin
      · exact hnin (by simp [CACHED_PROPS])
  have lk : ∀ (r : Dict) (v : JVal) (k : String), k ≠ "ref" →
      List.lookup k (("ref", v) :: removeKey r "ref") = List.lookup k r := by
    intro r v k hk
    have hbe : (k == "ref") = false := by simp [hk]
    simp only [List.lookup_cons, hbe]
    exact lookup_removeKey_ne r k "ref" hk
  rcases hl2 : List.lookup "ref" r2 with _ | v
  · have hl1 : List.lookup "ref" r1 = none := href.trans hl2
    simp [fromdict, hl1, hl2]
  · have hl1 : List.lookup "ref" r1 = some v := href.trans hl2
    rw [fromdict, fromdict, hl1, hl2]
    dsimp only
    refine ⟨?_, ?_, ?_⟩
    · simp only [Option.map_some', attr_pull_number]
      rw [lk r1 v _ (by decide), lk r2 v _ (by decide), hpn]
    · simp only [Option.map_some']
      rw [attr_subject.eq_def, attr_subject.eq_def,
        lk r1 v "subject" (by decide), lk r2 v "subject" (by decide),
        hsubj r1 hx1, hsubj r2 hx2,
        lk r1 v "pull_message" (by decide), lk r2 v "pull_message" (by decide), hpm]
    · simp only [Option.map_some', attr_is_open]
      rw [lk r1 v _ (by decide), lk r2 v _ (by decide), hio]

/-- C10 witness: a harmless extra key (`fetched_at`) has no observable
effect. -/
theorem C10_unknown_keys_ignored_witness :
    (fromdict [("ref", JVal.s "r"), ("pull_number", JVal.s "123456")]).map attr_pull_number
      = (fromdict [("ref", JVal.s "r"), ("pull_number", JVal.s "123456"),
          ("fetched_at", JVal.n 5)]).map attr_pull_number ∧
    (fromdict [("ref", JVal.s "r"), ("pull_number", JVal.s "123456")]).map attr_subject
      = (fromdict [("ref", JVal.s "r"), ("pull_number", JVal.s "123456"),
          ("fetched_at", JVal.n 5)]).map attr_subject ∧
    (fromdict [("ref", JVal.s "r"), ("pull_number", JVal.s "123456")]).map attr_is_open
      = (fromdict [("ref", JVal.s "r"), ("pull_number", JVal.s "123456"),
          ("fetched_at", JVal.n 5)]).map attr_is_open :=
  C10_unknown_keys_ignored
    [("ref", JVal.s "r"), ("pull_number", JVal.s "123456")]
    [("ref", JVal.s "r"), ("pull_number", JVal.s "123456"), ("fetched_at", JVal.n 5)]
    (by decide) (by decide) (by decide)

end Pullman
